import Mathlib

/-!
Verification of `camera_relative_stick_pygame.py`.

This file gives a shallow embedding of the numeric helpers, the controller
loop's per-tick state machines, the shared configuration store, and the
calibration wizard of the repository, and proves the frozen claims about them.

Exact stick/trigger arithmetic that involves no transcendental functions is
embedded over `ℚ`; the yaw/rotation/deadzone math, which uses `math.pi`,
`math.hypot` and `atan2`, is embedded over `ℝ`.
-/

namespace CameraRelativeStick

/-! ## Numeric helpers (source lines 185-220) -/

/-- `clamp` from the source (line 185), for exact rational arithmetic:
`return lo if v < lo else hi if v > hi else v`. -/
def clampQ (v lo hi : ℚ) : ℚ :=
  if v < lo then lo else if hi < v then hi else v

/-- Python's builtin `round` (used as `int(round(x))` at lines 207, 220, 806,
807): round half to even (banker's rounding). -/
def pyRound (x : ℚ) : ℤ :=
  if Int.fract x < 1 / 2 then ⌊x⌋
  else if 1 / 2 < Int.fract x then ⌊x⌋ + 1
  else if ⌊x⌋ % 2 = 0 then ⌊x⌋ else ⌊x⌋ + 1

theorem floor_le_pyRound (x : ℚ) : ⌊x⌋ ≤ pyRound x := by
  unfold pyRound; split_ifs <;> omega

theorem pyRound_le_floor_add_one (x : ℚ) : pyRound x ≤ ⌊x⌋ + 1 := by
  unfold pyRound; split_ifs <;> omega

theorem pyRound_le_ceil (x : ℚ) : pyRound x ≤ ⌈x⌉ := by
  have hfc := Int.floor_le_ceil x
  have hfr : Int.fract x = x - ⌊x⌋ := rfl
  unfold pyRound
  split_ifs with h1 h2 h3
  · exact hfc
  all_goals {
    have hx : (⌊x⌋ : ℚ) < x := by
      have h12 : (1:ℚ)/2 ≤ Int.fract x := le_of_not_lt h1
      linarith
    have hlt : ⌊x⌋ < ⌈x⌉ := Int.lt_ceil.mpr hx
    omega }

theorem abs_sub_pyRound_le (x : ℚ) : |x - pyRound x| ≤ 1 / 2 := by
  have hfr : Int.fract x = x - ⌊x⌋ := rfl
  have hf0 : 0 ≤ Int.fract x := Int.fract_nonneg x
  have hf1 : Int.fract x < 1 := Int.fract_lt_one x
  unfold pyRound
  split_ifs with h1 h2 h3 <;> rw [abs_le] <;> push_cast <;> constructor <;> linarith

theorem pyRound_mono {x y : ℚ} (h : x ≤ y) : pyRound x ≤ pyRound y := by
  rcases lt_or_le ⌊x⌋ ⌊y⌋ with hf | hf
  · have h1 := pyRound_le_floor_add_one x
    have h2 := floor_le_pyRound y
    omega
  · have hfe : ⌊x⌋ = ⌊y⌋ := le_antisymm (Int.floor_le_floor h) hf
    have hfrx : Int.fract x = x - ⌊x⌋ := rfl
    have hfry : Int.fract y = y - ⌊y⌋ := rfl
    have hff : Int.fract x ≤ Int.fract y := by
      rw [hfrx, hfry, hfe]; linarith
    unfold pyRound
    split_ifs <;> first | omega | linarith

/-! ## Trigger normalization (source lines 210-220, 314-331) -/

/-- The per-mode normalized input `t` computed at lines 211-218 of
`axis_to_trigger_0_255` (before clamping): `minus1_to_1` maps `v` to
`(v + 1) * 0.5`, `zero_to_1` keeps `v`, `one_to_minus1` maps `v` to
`(1 - v) * 0.5`, and any other mode string falls back to `(v + 1) * 0.5`. -/
def trigNorm (mode : String) (v : ℚ) : ℚ :=
  if mode = "minus1_to_1" then (v + 1) * (1/2)
  else if mode = "zero_to_1" then v
  else if mode = "one_to_minus1" then (1 - v) * (1/2)
  else (v + 1) * (1/2)

/-- `axis_to_trigger_0_255` (lines 210-220): normalize `v` by mode, clamp the
result to `[0, 1]`, and return `int(round(t * 255.0))`. -/
def axis_to_trigger_0_255 (v : ℚ) (mode : String) : ℤ :=
  pyRound (clampQ (trigNorm mode v) 0 1 * 255)

/-- The trigger-mode classification of `detect_trigger_axis` (lines 324-330):
rest value at most `-0.7` is ascending bipolar, at least `0.7` is descending
bipolar, anything else is direct zero-to-one. -/
def triggerModeOfRest (r : ℚ) : String :=
  if r ≤ -(7/10) then "minus1_to_1"
  else if (7/10) ≤ r then "one_to_minus1"
  else "zero_to_1"

theorem clampQ_mem (v lo hi : ℚ) (h : lo ≤ hi) :
    lo ≤ clampQ v lo hi ∧ clampQ v lo hi ≤ hi := by
  unfold clampQ; split_ifs <;> constructor <;> linarith

theorem clampQ_mono {v w : ℚ} (lo hi : ℚ) (hlh : lo ≤ hi) (h : v ≤ w) :
    clampQ v lo hi ≤ clampQ w lo hi := by
  unfold clampQ; split_ifs <;> linarith

/-- C5: for every raw axis value and every trigger mode the normalized trigger
output is an integer in `[0, 255]`; the output is monotone nondecreasing in the
mode's normalized input; a rest value of `-1.0` is classified as the ascending
bipolar mode `minus1_to_1`, and in that mode a raw reading of `0.0` produces
output `128`. -/
theorem C5_trigger_normalization :
    (∀ (v : ℚ) (mode : String),
      0 ≤ axis_to_trigger_0_255 v mode ∧ axis_to_trigger_0_255 v mode ≤ 255) ∧
    (∀ (mode : String) (v w : ℚ), trigNorm mode v ≤ trigNorm mode w →
      axis_to_trigger_0_255 v mode ≤ axis_to_trigger_0_255 w mode) ∧
    triggerModeOfRest (-1) = "minus1_to_1" ∧
    axis_to_trigger_0_255 0 "minus1_to_1" = 128 := by
  refine ⟨?_, ?_, ?_, ?_⟩
  · intro v mode
    obtain ⟨hl, hh⟩ := clampQ_mem (trigNorm mode v) 0 1 (by norm_num)
    constructor
    · have h0 : (0:ℚ) ≤ clampQ (trigNorm mode v) 0 1 * 255 := by positivity
      have := floor_le_pyRound (clampQ (trigNorm mode v) 0 1 * 255)
      have hfl : (0:ℤ) ≤ ⌊clampQ (trigNorm mode v) 0 1 * 255⌋ := Int.floor_nonneg.mpr h0
      unfold axis_to_trigger_0_255
      omega
    · have h255 : clampQ (trigNorm mode v) 0 1 * 255 ≤ (255:ℚ) := by nlinarith
      have hc : ⌈clampQ (trigNorm mode v) 0 1 * 255⌉ ≤ (255:ℤ) := by
        rw [Int.ceil_le]; exact_mod_cast h255
      have := pyRound_le_ceil (clampQ (trigNorm mode v) 0 1 * 255)
      unfold axis_to_trigger_0_255
      omega
  · intro mode v w hvw
    unfold axis_to_trigger_0_255
    exact pyRound_mono
      (by nlinarith [clampQ_mono 0 1 (by norm_num) hvw])
  · rw [triggerModeOfRest, if_pos (by norm_num : (-1 : ℚ) ≤ -(7/10))]
  · have ht : trigNorm "minus1_to_1" 0 = 1/2 := by
      rw [trigNorm, if_pos rfl]; norm_num
    have hc : clampQ (1/2 : ℚ) 0 1 * 255 = 255/2 := by norm_num [clampQ]
    have hfl : ⌊(255/2 : ℚ)⌋ = 127 := by norm_num [Int.floor_eq_iff]
    rw [axis_to_trigger_0_255, ht, hc, pyRound, Int.fract, hfl]
    norm_num

/-- Witness for C5: monotonicity applied at the concrete normalized inputs
of raw readings `0` and `1/2` in ascending bipolar mode. -/
theorem C5_trigger_normalization_witness :
    trigNorm "minus1_to_1" 0 ≤ trigNorm "minus1_to_1" (1/2) ∧
    axis_to_trigger_0_255 0 "minus1_to_1" ≤
      axis_to_trigger_0_255 (1/2) "minus1_to_1" :=
  ⟨by rw [trigNorm, trigNorm, if_pos rfl, if_pos rfl]; norm_num,
   C5_trigger_normalization.2.1 "minus1_to_1" 0 (1/2)
     (by rw [trigNorm, trigNorm, if_pos rfl, if_pos rfl]; norm_num)⟩

/-! ## Combo / edge detection (source lines 737-757) -/

/-- One tick of a multi-control combo's armed-flag logic (lines 739-743 for
L1+R3, lines 753-757 for L1+Start). Returns `(fire, armed)` for the tick:
fire when the combo is held and the flag is not armed, then arm; disarm
whenever the combo is not held. -/
def comboStep (combo armed : Bool) : Bool × Bool :=
  let fire := combo && !armed
  let armed1 := if fire then true else armed
  let armed2 := if !combo then false else armed1
  (fire, armed2)

/-- One tick of the single-control L3 binding (lines 746-749): fire on
`l3 and not prev_l3`, then remember the current state. -/
def l3Step (l3 prev_l3 : Bool) : Bool × Bool :=
  (l3 && !prev_l3, l3)

/-- Armed flag of a combo before tick `n`, for the tick-indexed stream `c` of
"all required controls held"; initially `False` (lines 604, 607). -/
def comboArmedAt (c : ℕ → Bool) : ℕ → Bool
  | 0 => false
  | n + 1 => (comboStep (c n) (comboArmedAt c n)).2

/-- Whether the combo fires its action at tick `n`. -/
def comboFireAt (c : ℕ → Bool) (n : ℕ) : Bool :=
  (comboStep (c n) (comboArmedAt c n)).1

/-- `prev_l3` before tick `n`; initially `False` (line 601). -/
def prevL3At (l3 : ℕ → Bool) : ℕ → Bool
  | 0 => false
  | n + 1 => (l3Step (l3 n) (prevL3At l3 n)).2

/-- Whether the L3 binding fires its action at tick `n`. -/
def l3FireAt (l3 : ℕ → Bool) (n : ℕ) : Bool :=
  (l3Step (l3 n) (prevL3At l3 n)).1

theorem comboStep_snd (combo armed : Bool) : (comboStep combo armed).2 = combo := by
  cases combo <;> cases armed <;> rfl

theorem comboArmedAt_succ (c : ℕ → Bool) (n : ℕ) : comboArmedAt c (n + 1) = c n := by
  rw [comboArmedAt, comboStep_snd]

theorem comboFireAt_iff (c : ℕ → Bool) (n : ℕ) :
    comboFireAt c n = true ↔ c n = true ∧ (n = 0 ∨ c (n - 1) = false) := by
  cases n with
  | zero =>
    simp [comboFireAt, comboArmedAt, comboStep]
  | succ m =>
    rw [comboFireAt, comboArmedAt_succ]
    cases h : c (m + 1) <;> cases h2 : c m <;> simp_all [comboStep]

theorem l3FireAt_iff (l3 : ℕ → Bool) (n : ℕ) :
    l3FireAt l3 n = true ↔ l3 n = true ∧ (n = 0 ∨ l3 (n - 1) = false) := by
  cases n with
  | zero =>
    simp [l3FireAt, prevL3At, l3Step]
  | succ m =>
    rw [l3FireAt, prevL3At, l3Step]
    cases h : l3 (m + 1) <;> cases h2 : l3 m <;> simp_all [l3Step]

/-- C4: for every sequence of ticks, the L1+R3 combo and the L1+Start combo
fire exactly at the rising edges of "all required controls held" (and so never
fire again until the condition has become false), and the single-control L3
binding fires exactly at the rising edges of L3. -/
theorem C4_combo_rising_edge (l1 r3 start l3 : ℕ → Bool) :
    (∀ n, comboFireAt (fun k => l1 k && r3 k) n = true ↔
      (l1 n && r3 n) = true ∧ (n = 0 ∨ (l1 (n-1) && r3 (n-1)) = false)) ∧
    (∀ n, comboFireAt (fun k => l1 k && start k) n = true ↔
      (l1 n && start n) = true ∧ (n = 0 ∨ (l1 (n-1) && start (n-1)) = false)) ∧
    (∀ n, l3FireAt l3 n = true ↔ l3 n = true ∧ (n = 0 ∨ l3 (n-1) = false)) :=
  ⟨fun n => comboFireAt_iff (fun k => l1 k && r3 k) n,
   fun n => comboFireAt_iff (fun k => l1 k && start k) n,
   fun n => l3FireAt_iff l3 n⟩

/-! ## Pointer (mouse) emission with fractional remainder (source lines 800-812) -/

/-- One active tick of pointer emission for one component (lines 803-810):
accumulate this tick's continuous motion `d` into the remainder, emit the
rounded integer part, and retain the difference. Returns
`(new remainder, emitted integer delta)`. -/
def mouseEmitStep (rem d : ℚ) : ℚ × ℤ :=
  let acc := rem + d
  let send := pyRound acc
  (acc - send, send)

/-- Remainder before active tick `n` for constant per-tick motion `d`;
initially `0` (lines 595-596). -/
def mouseRemAt (d : ℚ) : ℕ → ℚ
  | 0 => 0
  | n + 1 => (mouseEmitStep (mouseRemAt d n) d).1

/-- Integer delta emitted at active tick `n` for constant per-tick motion `d`. -/
def mouseSentAt (d : ℚ) (n : ℕ) : ℤ :=
  (mouseEmitStep (mouseRemAt d n) d).2

/-- Sum of the integer deltas emitted over the first `K` active ticks. -/
def mouseSentSum (d : ℚ) : ℕ → ℤ
  | 0 => 0
  | n + 1 => mouseSentSum d n + mouseSentAt d n

theorem mouseSentSum_add_rem (d : ℚ) (K : ℕ) :
    (mouseSentSum d K : ℚ) + mouseRemAt d K = K * d := by
  induction K with
  | zero => simp [mouseSentSum, mouseRemAt]
  | succ n ih =>
    rw [mouseSentSum, mouseRemAt, mouseSentAt, mouseEmitStep]
    push_cast
    push_cast at ih
    ring_nf
    ring_nf at ih
    linarith

theorem mouseRemAt_le_half (d : ℚ) (K : ℕ) : |mouseRemAt d K| ≤ 1 / 2 := by
  cases K with
  | zero => simp [mouseRemAt]
  | succ n =>
    rw [mouseRemAt, mouseEmitStep]
    exact abs_sub_pyRound_le (mouseRemAt d n + d)

/-- C6: each active tick emits exactly the rounded integer part of the
accumulated motion and retains the remainder; the remainder always has
absolute value at most `1/2`, so for constant per-tick motion `d` the sum of
emitted integer deltas over `K` ticks stays within one unit of the true
continuous integral `K * d`. -/
theorem C6_mouse_remainder :
    (∀ (d : ℚ) (K : ℕ), mouseSentAt d K = pyRound (mouseRemAt d K + d) ∧
      mouseRemAt d (K + 1) = mouseRemAt d K + d - mouseSentAt d K) ∧
    (∀ (d : ℚ) (K : ℕ), |mouseRemAt d K| ≤ 1 / 2) ∧
    (∀ (d : ℚ) (K : ℕ), |(mouseSentSum d K : ℚ) - K * d| ≤ 1) := by
  refine ⟨fun d K => ⟨rfl, rfl⟩, mouseRemAt_le_half, fun d K => ?_⟩
  have h1 := mouseSentSum_add_rem d K
  have h2 := mouseRemAt_le_half d K
  rw [abs_le] at h2 ⊢
  constructor <;> linarith

/-! ## Radial deadzone (source lines 185-196) -/

/-- `clamp` from the source (line 185), over the reals. -/
noncomputable def clampR (v lo hi : ℝ) : ℝ :=
  if v < lo then lo else if hi < v then hi else v

/-- `math.hypot` as used at line 190. -/
noncomputable def hypot (x y : ℝ) : ℝ := Real.sqrt (x ^ 2 + y ^ 2)

/-- `apply_deadzone` (lines 189-196): report `(0, 0)` when the magnitude is
below the deadzone radius or exactly zero; otherwise rescale the magnitude
from `[dz, 1]` to `[0, 1]` (clamped) while keeping the direction. -/
noncomputable def apply_deadzone (x y dz : ℝ) : ℝ × ℝ :=
  if hypot x y < dz ∨ hypot x y = 0 then (0, 0)
  else (x * (clampR ((hypot x y - dz) / (1 - dz)) 0 1 / hypot x y),
        y * (clampR ((hypot x y - dz) / (1 - dz)) 0 1 / hypot x y))

theorem clampR_mem (v lo hi : ℝ) (h : lo ≤ hi) :
    lo ≤ clampR v lo hi ∧ clampR v lo hi ≤ hi := by
  unfold clampR; split_ifs <;> constructor <;> linarith

theorem hypot_mul_right (x y : ℝ) {s : ℝ} (hs : 0 ≤ s) :
    hypot (x * s) (y * s) = hypot x y * s := by
  rw [hypot, hypot]
  have h : (x * s) ^ 2 + (y * s) ^ 2 = (x ^ 2 + y ^ 2) * s ^ 2 := by ring
  rw [h, Real.sqrt_mul (by positivity), Real.sqrt_sq hs]

/-- C2: for every deadzone radius `dz ∈ [0, 1)` and input `(x, y)`: input
magnitude equal to `dz` gives output `(0, 0)`; input magnitude `1` gives
output magnitude `1`; any input whose output is not zeroed out keeps its
`atan2` direction (expressed through `Complex.arg`); and with `dz = 0.1` the
input `(0.55, 0)` maps to `(0.5, 0)`. -/
theorem C2_deadzone_properties (dz x y : ℝ) (h0 : 0 ≤ dz) (h1 : dz < 1) :
    (hypot x y = dz → apply_deadzone x y dz = (0, 0)) ∧
    (hypot x y = 1 →
      hypot (apply_deadzone x y dz).1 (apply_deadzone x y dz).2 = 1) ∧
    (apply_deadzone x y dz ≠ (0, 0) →
      Complex.arg ((apply_deadzone x y dz).1 + (apply_deadzone x y dz).2 * Complex.I)
        = Complex.arg (x + y * Complex.I)) ∧
    apply_deadzone (0.55 : ℝ) 0 (0.1 : ℝ) = (0.5, 0) := by
  refine ⟨?_, ?_, ?_, ?_⟩
  · intro hm
    by_cases hz : hypot x y = 0
    · rw [apply_deadzone, if_pos (Or.inr hz)]
    · have hcond : ¬ (hypot x y < dz ∨ hypot x y = 0) := by
        push_neg
        exact ⟨by rw [hm], hz⟩
      rw [apply_deadzone, if_neg hcond, hm, sub_self, zero_div]
      have hc : clampR (0:ℝ) 0 1 = 0 := by rw [clampR]; norm_num
      rw [hc, zero_div, mul_zero, mul_zero]
  · intro hm
    have hcond : ¬ (hypot x y < dz ∨ hypot x y = 0) := by
      push_neg
      rw [hm]
      exact ⟨h1.le, one_ne_zero⟩
    rw [apply_deadzone, if_neg hcond, hm]
    have h9 : (1 - dz) / (1 - dz) = 1 := div_self (by linarith)
    rw [h9]
    have hc : clampR (1:ℝ) 0 1 = 1 := by rw [clampR]; norm_num
    rw [hc]
    simpa using hm
  · intro hne
    by_cases hcond : hypot x y < dz ∨ hypot x y = 0
    · exact absurd (by rw [apply_deadzone, if_pos hcond]) hne
    · have hmag : 0 < hypot x y :=
        lt_of_le_of_ne (Real.sqrt_nonneg _) (Ne.symm (not_or.mp hcond).2)
      set c := clampR ((hypot x y - dz) / (1 - dz)) 0 1 with hcdef
      have hc0 : 0 ≤ c := (clampR_mem _ 0 1 (by norm_num)).1
      set s := c / hypot x y with hsdef
      have hout : apply_deadzone x y dz = (x * s, y * s) := by
        rw [apply_deadzone, if_neg hcond]
      have hs0 : 0 ≤ s := div_nonneg hc0 hmag.le
      have hspos : 0 < s := by
        rcases lt_or_eq_of_le hs0 with h | h
        · exact h
        · exfalso
          apply hne
          rw [hout, ← h, mul_zero, mul_zero]
      rw [hout]
      have hz : ((x * s : ℝ) : ℂ) + ((y * s : ℝ) : ℂ) * Complex.I
          = (s : ℂ) * ((x : ℂ) + (y : ℝ) * Complex.I) := by
        push_cast
        ring
      show Complex.arg ((x * s : ℝ) + (y * s : ℝ) * Complex.I) = _
      rw [hz]
      exact Complex.arg_real_mul _ hspos
  · have hm : hypot (0.55 : ℝ) 0 = 0.55 := by
      rw [hypot]
      have h : ((0.55:ℝ) ^ 2 + 0 ^ 2) = 0.55 ^ 2 := by norm_num
      rw [h, Real.sqrt_sq (by norm_num : (0:ℝ) ≤ 0.55)]
    rw [apply_deadzone, hm, if_neg (by norm_num)]
    have hc : clampR (((0.55:ℝ) - 0.1) / (1 - 0.1)) 0 1 = 0.5 := by
      rw [clampR]
      norm_num
    rw [hc]
    norm_num

/-- Witness for C2: the concrete scenario with deadzone `0.1` and input
`(0.55, 0)`, with the interval hypotheses discharged at `dz = 0.1`. -/
theorem C2_deadzone_properties_witness :
    (0:ℝ) ≤ 0.1 ∧ (0.1:ℝ) < 1 ∧ apply_deadzone (0.55 : ℝ) 0 (0.1 : ℝ) = (0.5, 0) :=
  ⟨by norm_num, by norm_num,
   (C2_deadzone_properties 0.1 0.55 0 (by norm_num) (by norm_num)).2.2.2⟩

/-- C9: `apply_deadzone` is total for `dz ∈ [0, 1)`: a zero input magnitude
takes the early-return branch, the rescale branch is only reached with a
strictly positive magnitude (so the division is never by zero), and for input
magnitude at most `1` the output magnitude never exceeds `1`. -/
theorem C9_deadzone_total (dz x y : ℝ) (h0 : 0 ≤ dz) (h1 : dz < 1) :
    (hypot x y = 0 → apply_deadzone x y dz = (0, 0)) ∧
    (¬ (hypot x y < dz ∨ hypot x y = 0) → 0 < hypot x y) ∧
    (hypot x y ≤ 1 →
      hypot (apply_deadzone x y dz).1 (apply_deadzone x y dz).2 ≤ 1) := by
  refine ⟨fun hz => by rw [apply_deadzone, if_pos (Or.inr hz)], ?_, ?_⟩
  · intro hcond
    exact lt_of_le_of_ne (Real.sqrt_nonneg _) (Ne.symm (not_or.mp hcond).2)
  · intro hle
    by_cases hcond : hypot x y < dz ∨ hypot x y = 0
    · rw [apply_deadzone, if_pos hcond]
      have h00 : hypot (0:ℝ) 0 = 0 := by
        rw [hypot]
        norm_num
      rw [h00]
      norm_num
    · have hmag : 0 < hypot x y :=
        lt_of_le_of_ne (Real.sqrt_nonneg _) (Ne.symm (not_or.mp hcond).2)
      rw [apply_deadzone, if_neg hcond]
      set c := clampR ((hypot x y - dz) / (1 - dz)) 0 1 with hcdef
      have hc := clampR_mem ((hypot x y - dz) / (1 - dz)) 0 1 (by norm_num)
      have hs0 : 0 ≤ c / hypot x y := div_nonneg hc.1 hmag.le
      rw [hypot_mul_right x y hs0, mul_comm, div_mul_cancel₀ c (ne_of_gt hmag)]
      exact hc.2

/-- Witness for C9: instance at `dz = 1/2`, input `(1, 0)`. -/
theorem C9_deadzone_total_witness :
    (0:ℝ) ≤ 1/2 ∧ (1/2:ℝ) < 1 ∧
    ((hypot 1 0 = 0 → apply_deadzone 1 0 (1/2) = (0, 0)) ∧
     (¬ (hypot 1 0 < 1/2 ∨ hypot 1 0 = 0) → 0 < hypot 1 0) ∧
     (hypot 1 0 ≤ 1 →
       hypot (apply_deadzone 1 0 (1/2)).1 (apply_deadzone 1 0 (1/2)).2 ≤ 1)) :=
  ⟨by norm_num, by norm_num,
   C9_deadzone_total (1/2) 1 0 (by norm_num) (by norm_num)⟩

/-! ## Yaw integration and wrap (source lines 654-659) -/

/-- Python's float modulo `a % b` for `b > 0`: `a - b * ⌊a / b⌋`. -/
noncomputable def pyMod (a b : ℝ) : ℝ := a - b * ⌊a / b⌋

/-- One tick of yaw integration (lines 654-659): integrate the deadzoned
right-stick X into the yaw offset with the configured angular speed and
inversion sign, then, when wrap is enabled, renormalize via
`(yaw + pi) % (2 pi) - pi`. -/
noncomputable def yawTick (invert_rotation wrap_yaw : Bool)
    (yaw_offset drx rotation_speed dt : ℝ) : ℝ :=
  let rot_dir : ℝ := if invert_rotation then -1 else 1
  let speed_rad := rotation_speed * Real.pi / 180
  let y := yaw_offset + rot_dir * (drx * speed_rad * dt)
  if wrap_yaw then pyMod (y + Real.pi) (2 * Real.pi) - Real.pi else y

/-- Yaw offset after `n` ticks with constant input, starting from `0`
(line 591). -/
noncomputable def yawTraj (invert_rotation wrap_yaw : Bool)
    (drx rotation_speed dt : ℝ) : ℕ → ℝ
  | 0 => 0
  | n + 1 =>
    yawTick invert_rotation wrap_yaw
      (yawTraj invert_rotation wrap_yaw drx rotation_speed dt n) drx rotation_speed dt

theorem pyMod_mem {b : ℝ} (a : ℝ) (hb : 0 < b) :
    0 ≤ pyMod a b ∧ pyMod a b < b := by
  have hb0 : b ≠ 0 := ne_of_gt hb
  have h : pyMod a b = b * Int.fract (a / b) := by
    rw [pyMod, Int.fract, mul_sub, mul_div_cancel₀ a hb0]
  constructor
  · rw [h]
    exact mul_nonneg hb.le (Int.fract_nonneg _)
  · rw [h]
    calc b * Int.fract (a / b) < b * 1 := (mul_lt_mul_left hb).mpr (Int.fract_lt_one _)
      _ = b := mul_one b

/-- C1 (amended): with wrap enabled, after every tick the yaw offset lies in
the half-open interval `[-pi, pi)` (not `(-pi, pi]`); with wrap disabled and a
constant nonzero input it accumulates without bound. -/
theorem C1_yaw_wrap_amended (inv : Bool) (yaw_offset drx rotation_speed dt M : ℝ)
    (hdrx : 0 < drx) (hsp : 0 < rotation_speed) (hdt : 0 < dt) :
    yawTick inv true yaw_offset drx rotation_speed dt ∈ Set.Ico (-Real.pi) Real.pi ∧
    ∃ n : ℕ, M < yawTraj false false drx rotation_speed dt n := by
  have hpi := Real.pi_pos
  constructor
  · have key : ∀ ywd : ℝ,
        pyMod (ywd + Real.pi) (2 * Real.pi) - Real.pi ∈ Set.Ico (-Real.pi) Real.pi := by
      intro ywd
      obtain ⟨hl, hh⟩ := pyMod_mem (ywd + Real.pi) (by linarith : (0:ℝ) < 2 * Real.pi)
      rw [Set.mem_Ico]
      constructor <;> linarith
    simp only [yawTick, if_true]
    exact key _
  · set δ := drx * (rotation_speed * Real.pi / 180) * dt with hδ
    have hδpos : 0 < δ := by
      rw [hδ]
      positivity
    have htraj : ∀ n : ℕ, yawTraj false false drx rotation_speed dt n = n * δ := by
      intro n
      induction n with
      | zero => simp [yawTraj]
      | succ m ih =>
        rw [yawTraj, yawTick]
        simp only [Bool.false_eq_true, if_false, ih, hδ]
        push_cast
        ring
    obtain ⟨n, hn⟩ := exists_nat_gt (M / δ)
    exact ⟨n, by rw [htraj n]; exact (div_lt_iff₀ hδpos).mp hn⟩

/-- Witness for C1 (amended): concrete instance with unit input, rotation
speed 180 deg/s, dt 1 s, and bound 100. -/
theorem C1_yaw_wrap_amended_witness :
    (0:ℝ) < 1 ∧ (0:ℝ) < 180 ∧
    (yawTick true true 0 1 180 1 ∈ Set.Ico (-Real.pi) Real.pi ∧
      ∃ n : ℕ, (100:ℝ) < yawTraj false false 1 180 1 n) :=
  ⟨by norm_num, by norm_num,
   C1_yaw_wrap_amended true 0 1 180 1 100 (by norm_num) (by norm_num) (by norm_num)⟩

/-- Counterexample to C1 as stated: with wrap enabled, rotation speed 180
deg/s, no inversion, full right-stick deflection for one 1-second tick from a
zero yaw offset, the yaw after the tick is exactly `-pi`, which is not in the
claimed interval `(-pi, pi]`. -/
theorem C1_yaw_wrap_counterexample :
    yawTick false true 0 1 180 1 = -Real.pi ∧
    yawTick false true 0 1 180 1 ∉ Set.Ioc (-Real.pi) Real.pi := by
  have hpi := Real.pi_pos
  have harg : (0:ℝ) + 1 * (1 * (180 * Real.pi / 180) * 1) + Real.pi = 2 * Real.pi := by
    ring
  have hmod : pyMod (2 * Real.pi) (2 * Real.pi) = 0 := by
    rw [pyMod, div_self (by positivity : (2 * Real.pi) ≠ 0), Int.floor_one]
    push_cast
    ring
  have hval : yawTick false true 0 1 180 1 = -Real.pi := by
    simp only [yawTick, Bool.false_eq_true, if_false, if_true]
    rw [harg, hmod]
    ring
  exact ⟨hval, by rw [hval]; simp [Set.mem_Ioc]⟩

/-! ## Shared configuration store (source lines 537-581) -/

/-- A JSON-representable top-level configuration value. -/
inductive JVal where
  | num (q : ℚ)
  | bool (b : Bool)
  | str (s : String)
deriving DecidableEq

/-- The live `Config` object's attribute dictionary (`cfg.__dict__`): an
association list over the fixed attribute names. -/
abbrev Cfg := List (String × JVal)

/-- Python `hasattr(cfg, k)` on the embedded attribute dictionary. -/
def hasattr (cfg : Cfg) (k : String) : Bool :=
  cfg.any (fun p => p.1 == k)

/-- Python `setattr(cfg, k, v)` on the embedded attribute dictionary (only
meaningful for existing attributes, which is how the source guards it). -/
def setattr (cfg : Cfg) (k : String) (v : JVal) : Cfg :=
  cfg.map (fun p => if p.1 == k then (p.1, v) else p)

/-- Python `getattr(cfg, k)` as a partial lookup. -/
def getattr? (cfg : Cfg) (k : String) : Option JVal :=
  (cfg.find? (fun p => p.1 == k)).map Prod.snd

/-- The `for k, v in data.items(): if hasattr(cfg, k): setattr(cfg, k, v)`
overlay used by `load_config` (lines 235-237), `update_and_save`
(lines 553-555) and `maybe_reload_from_disk` (lines 571-573). -/
def applyFields (cfg : Cfg) (fields : List (String × JVal)) : Cfg :=
  fields.foldl (fun c kv => if hasattr c kv.1 then setattr c kv.1 kv.2 else c) cfg

/-- Content of the persisted document: `some doc` for well-formed JSON whose
top-level fields are `doc`; `none` for malformed content that `json.loads`
rejects. -/
abbrev DiskTxt := Option (List (String × JVal))

/-- `SharedState` (lines 537-581): the live config, the persisted document's
current content, and the cached last-written serialized form
(`last_saved_cfg_json`, initially `None`, line 542). -/
structure SharedState where
  cfg : Cfg
  file : DiskTxt
  last_saved_cfg_json : Option DiskTxt
deriving DecidableEq

/-- `SharedState.update_and_save` (lines 551-556): overlay the given fields
onto the live config under the lock and write the full document; the cache
`last_saved_cfg_json` is not touched by this method. -/
def update_and_save (st : SharedState) (fields : List (String × JVal)) : SharedState :=
  { cfg := applyFields st.cfg fields,
    file := some (applyFields st.cfg fields),
    last_saved_cfg_json := st.last_saved_cfg_json }

/-- `SharedState.mark_saved` (lines 576-581): re-read the persisted document
and cache its content. -/
def mark_saved (st : SharedState) : SharedState :=
  { st with last_saved_cfg_json := some st.file }

/-- `SharedState.maybe_reload_from_disk` (lines 558-574): no-op when the
content equals the cached form; no-op when the content is malformed;
otherwise overlay the recognized fields under the lock and update the
cache. -/
def maybe_reload_from_disk (st : SharedState) : SharedState :=
  if some st.file = st.last_saved_cfg_json then st
  else
    match st.file with
    | none => st
    | some data =>
      { cfg := applyFields st.cfg data, file := st.file,
        last_saved_cfg_json := some st.file }

theorem fst_setattr_entry (a : String) (v : JVal) (p : String × JVal) :
    (if p.1 == a then (p.1, v) else p).1 = p.1 := by
  split <;> rfl

theorem hasattr_setattr (c : Cfg) (a k : String) (v : JVal) :
    hasattr (setattr c a v) k = hasattr c k := by
  unfold hasattr setattr
  rw [List.any_map]
  congr 1
  funext p
  simp only [Function.comp_apply, fst_setattr_entry]

theorem hasattr_applyFields (c : Cfg) (fs : List (String × JVal)) (k : String) :
    hasattr (applyFields c fs) k = hasattr c k := by
  induction fs generalizing c with
  | nil => rfl
  | cons f t ih =>
    have hstep : applyFields c (f :: t) =
        applyFields (if hasattr c f.1 then setattr c f.1 f.2 else c) t := rfl
    rw [hstep, ih]
    split
    · rw [hasattr_setattr]
    · rfl

theorem getattr?_eq_none_of_hasattr_false (c : Cfg) (k : String)
    (h : hasattr c k = false) : getattr? c k = none := by
  induction c with
  | nil => rfl
  | cons p t ih =>
    simp only [hasattr, List.any_cons, Bool.or_eq_false_iff] at h
    have ht : getattr? t k = none := ih (by simp [hasattr, h.2])
    simp only [getattr?, List.find?_cons, h.1] at *
    exact ht

theorem getattr?_setattr_ne (c : Cfg) {a k : String} (h : a ≠ k) (v : JVal) :
    getattr? (setattr c a v) k = getattr? c k := by
  induction c with
  | nil => rfl
  | cons p t ih =>
    simp only [setattr, List.map_cons, getattr?, List.find?_cons, fst_setattr_entry]
    by_cases hpk : (p.1 == k) = true
    · have hk : p.1 = k := by simpa using hpk
      have hpa : (p.1 == a) = false := by simp [hk, Ne.symm h]
      simp [hpk, hpa]
    · have hpk2 : (p.1 == k) = false := by simpa using hpk
      simp only [hpk2]
      simpa [getattr?, setattr] using ih

theorem getattr?_applyFields_not_mem (c : Cfg) (fs : List (String × JVal)) (k : String)
    (h : ∀ kv ∈ fs, kv.1 ≠ k) :
    getattr? (applyFields c fs) k = getattr? c k := by
  induction fs generalizing c with
  | nil => rfl
  | cons f t ih =>
    have hstep : applyFields c (f :: t) =
        applyFields (if hasattr c f.1 then setattr c f.1 f.2 else c) t := rfl
    rw [hstep, ih _ (fun kv hkv => h kv (List.mem_cons_of_mem f hkv))]
    split
    · exact getattr?_setattr_ne c (h f (List.mem_cons_self f t)) f.2
    · rfl

theorem maybe_reload_cases (st : SharedState) :
    maybe_reload_from_disk st = st ∨
    ∃ data, st.file = some data ∧
      maybe_reload_from_disk st =
        { cfg := applyFields st.cfg data, file := st.file,
          last_saved_cfg_json := some st.file } := by
  rw [maybe_reload_from_disk]
  split
  · exact Or.inl rfl
  · cases hf : st.file with
    | none => exact Or.inl rfl
    | some data => exact Or.inr ⟨data, rfl, rfl⟩

/-- C3 (amended): `update_and_save` applies the given fields to the live
config under the lock and immediately persists the full document, but does
not itself cache the serialized form; the cache is only updated by the
separate `mark_saved` call (which the GUI issues right after saving), after
which a reload of the identical persisted content is recognized as unchanged
(`maybe_reload_from_disk` is the identity). -/
theorem C3_update_and_save_amended (st : SharedState) (fields : List (String × JVal)) :
    (update_and_save st fields).cfg = applyFields st.cfg fields ∧
    (update_and_save st fields).file = some ((update_and_save st fields).cfg) ∧
    (update_and_save st fields).last_saved_cfg_json = st.last_saved_cfg_json ∧
    (mark_saved (update_and_save st fields)).last_saved_cfg_json
      = some ((update_and_save st fields).file) ∧
    maybe_reload_from_disk (mark_saved (update_and_save st fields))
      = mark_saved (update_and_save st fields) := by
  refine ⟨rfl, rfl, rfl, rfl, ?_⟩
  have hc : some (mark_saved (update_and_save st fields)).file
      = (mark_saved (update_and_save st fields)).last_saved_cfg_json := rfl
  rw [maybe_reload_from_disk, if_pos hc]

/-- Concrete store state for the C3 counterexample: nothing cached yet, a
boolean field about to be flipped. -/
def c3State : SharedState :=
  { cfg := [("wrap_yaw", JVal.bool true)],
    file := some [("wrap_yaw", JVal.bool true)],
    last_saved_cfg_json := none }

/-- Field update used by the C3 counterexample. -/
def c3Fields : List (String × JVal) := [("wrap_yaw", JVal.bool false)]

/-- Counterexample to C3 as stated: after `update_and_save` alone the cache
does not hold the serialized form just written, and a subsequent reload of
the identical content is not recognized as unchanged (it mutates the
state). -/
theorem C3_update_and_save_counterexample :
    (update_and_save c3State c3Fields).last_saved_cfg_json ≠
      some ((update_and_save c3State c3Fields).file) ∧
    maybe_reload_from_disk (update_and_save c3State c3Fields) ≠
      update_and_save c3State c3Fields := by
  constructor <;> decide

/-- C7: `maybe_reload_from_disk` leaves the live config completely unchanged
on malformed persisted content, and on a reload it never adds unknown fields:
the attribute set is preserved, a field the config does not have stays
absent, and a field not mentioned in the document keeps its value. -/
theorem C7_reload_safety (st : SharedState) :
    (st.file = none → maybe_reload_from_disk st = st) ∧
    (∀ k, hasattr (maybe_reload_from_disk st).cfg k = hasattr st.cfg k) ∧
    (∀ k, hasattr st.cfg k = false →
      getattr? (maybe_reload_from_disk st).cfg k = none) ∧
    (∀ data k, st.file = some data → (∀ kv ∈ data, kv.1 ≠ k) →
      getattr? (maybe_reload_from_disk st).cfg k = getattr? st.cfg k) := by
  have hattr : ∀ k, hasattr (maybe_reload_from_disk st).cfg k = hasattr st.cfg k := by
    intro k
    rcases maybe_reload_cases st with h | ⟨data, hf, h⟩
    · rw [h]
    · rw [h]
      exact hasattr_applyFields st.cfg data k
  refine ⟨?_, hattr, ?_, ?_⟩
  · intro h
    rcases maybe_reload_cases st with hc | ⟨data, hf, hc⟩
    · exact hc
    · rw [h] at hf
      exact absurd hf (by simp)
  · intro k hk
    exact getattr?_eq_none_of_hasattr_false _ k (by rw [hattr k]; exact hk)
  · intro data k hf hnm
    rcases maybe_reload_cases st with hc | ⟨data2, hf2, hc⟩
    · rw [hc]
    · rw [hf] at hf2
      cases hf2
      rw [hc]
      exact getattr?_applyFields_not_mem st.cfg data k hnm

/-- Concrete store state for the C7 witness: malformed persisted content. -/
def c7State : SharedState :=
  { cfg := [("wrap_yaw", JVal.bool true)],
    file := none,
    last_saved_cfg_json := none }

/-- Witness for C7: a reload over malformed content leaves the concrete state
untouched. -/
theorem C7_reload_safety_witness :
    maybe_reload_from_disk c7State = c7State :=
  (C7_reload_safety c7State).1 rfl

/-! ## Calibrated-control readers (source lines 499-530) -/

/-- A captured binding dictionary for one logical control; each field may be
absent, as in the Python dicts read with `info.get(...)` and defaults. -/
structure Binding where
  btype : Option String
  index : Option ℤ
  mode : Option String
deriving DecidableEq

/-- The raw joystick read interface used by the readers; pygame raises on an
out-of-range index, which the readers catch and turn into `False` / `0`. -/
structure Joystick where
  numbuttons : ℕ
  buttons : ℕ → Bool
  numaxes : ℕ
  axes : ℕ → ℚ

/-- `read_cal_button` (lines 506-516): `False` when the binding is missing,
not of button type or with a negative index, or when the physical read
raises; otherwise the raw button state. -/
def read_cal_button (js : Joystick) (cal : String → Option Binding) (key : String) : Bool :=
  match cal key with
  | none => false
  | some info =>
    if info.btype ≠ some "button" then false
    else if info.index.getD (-1) < 0 then false
    else if (info.index.getD (-1)).toNat < js.numbuttons then
      js.buttons (info.index.getD (-1)).toNat
    else false

/-- `read_cal_trigger` (lines 519-530): `0` when the binding is missing, not
of axis type or with a negative index, or when the physical read raises;
otherwise the normalized 0-255 trigger value for the calibrated mode. -/
def read_cal_trigger (js : Joystick) (cal : String → Option Binding) (key : String) : ℤ :=
  match cal key with
  | none => 0
  | some info =>
    if info.btype ≠ some "axis" then 0
    else if info.index.getD (-1) < 0 then 0
    else if (info.index.getD (-1)).toNat < js.numaxes then
      axis_to_trigger_0_255 (js.axes (info.index.getD (-1)).toNat)
        (info.mode.getD "minus1_to_1")
    else 0

/-- C10: reading a calibrated control is total at the public interface: a
missing binding, a non-matching binding type, or a negative index always
yields released (`False`) for buttons and `0` for triggers. -/
theorem C10_uncalibrated_reads (js : Joystick) (cal : String → Option Binding)
    (key : String) :
    (cal key = none →
      read_cal_button js cal key = false ∧ read_cal_trigger js cal key = 0) ∧
    (∀ b, cal key = some b → b.btype ≠ some "button" →
      read_cal_button js cal key = false) ∧
    (∀ b, cal key = some b → b.btype ≠ some "axis" →
      read_cal_trigger js cal key = 0) ∧
    (∀ b, cal key = some b → b.index.getD (-1) < 0 →
      read_cal_button js cal key = false ∧ read_cal_trigger js cal key = 0) := by
  refine ⟨fun h => ?_, fun b hb hbt => ?_, fun b hb hbt => ?_, fun b hb hidx => ?_⟩
  · rw [read_cal_button, read_cal_trigger, h]
    exact ⟨rfl, rfl⟩
  · rw [read_cal_button, hb]
    exact if_pos hbt
  · rw [read_cal_trigger, hb]
    exact if_pos hbt
  · constructor
    · rw [read_cal_button, hb]
      by_cases hbt : b.btype ≠ some "button"
      · exact if_pos hbt
      · show (if b.btype ≠ some "button" then false
            else if b.index.getD (-1) < 0 then false
            else if (b.index.getD (-1)).toNat < js.numbuttons then
              js.buttons (b.index.getD (-1)).toNat
            else false) = false
        rw [if_neg hbt, if_pos hidx]
    · rw [read_cal_trigger, hb]
      by_cases hbt : b.btype ≠ some "axis"
      · exact if_pos hbt
      · show (if b.btype ≠ some "axis" then 0
            else if b.index.getD (-1) < 0 then 0
            else if (b.index.getD (-1)).toNat < js.numaxes then
              axis_to_trigger_0_255 (js.axes (b.index.getD (-1)).toNat)
                (b.mode.getD "minus1_to_1")
            else 0) = (0:ℤ)
        rw [if_neg hbt, if_pos hidx]

/-- Joystick with no controls, for the C10 witness. -/
def c10Joystick : Joystick :=
  { numbuttons := 0, buttons := fun _ => false, numaxes := 0, axes := fun _ => 0 }

/-- Empty calibration map, for the C10 witness. -/
def c10Cal : String → Option Binding := fun _ => none

/-- Witness for C10: the totally uncalibrated map reads as released/zero. -/
theorem C10_uncalibrated_reads_witness :
    read_cal_button c10Joystick c10Cal "l3" = false ∧
    read_cal_trigger c10Joystick c10Cal "l3" = 0 :=
  (C10_uncalibrated_reads c10Joystick c10Cal "l3").1 rfl

/-! ## Calibration wizard (source lines 363-496, 1158-1163) -/

/-- An operator-produced capture for one blocking probe of the wizard:
`axisCap` for `detect_axis_by_moving`, `buttonCap` for
`detect_first_button_press`, `hatCap` for `detect_hat_direction`, `trigCap`
for `detect_trigger_axis`, and `released` for the release waits
(`wait_for_buttons_released`, `wait_for_axis_near`, hat recentering). -/
inductive Capture where
  | axisCap (axis : ℕ) (sign : ℤ) (rest : ℚ)
  | buttonCap (index : ℕ)
  | hatCap (hx hy : ℤ)
  | trigCap (index : ℕ) (mode : String) (rest : ℚ)
  | released
deriving DecidableEq

/-- A calibration-dictionary entry (`cal[key]`). -/
inductive CalEntry where
  | intE (n : ℤ)
  | strE (s : String)
  | buttonE (index : ℕ)
  | hatDirE (hat_index : ℤ) (hx hy : ℤ)
  | axisE (index : ℕ) (mode : String) (rest : ℚ)
  | sticksE (l : List (String × ℕ × ℤ × ℚ))
  | noneE
deriving DecidableEq

/-- The configuration fields that `calibrate_controller` writes into the
config and then persists (lines 388-394, 489-491). -/
structure CalCfg where
  left_x_axis : ℕ
  left_y_axis : ℕ
  right_x_axis : ℕ
  right_y_axis : ℕ
  invert_left_y : Bool
  invert_right_y : Bool
  calibrated : Bool
  calibration : List (String × CalEntry)
deriving DecidableEq

def button_keys : List String :=
  ["square_x", "cross_a", "circle_b", "triangle_y",
   "l1_lb", "r1_rb", "start", "select_back", "l3", "r3"]

def dpad_keys : List String := ["dpad_up", "dpad_left", "dpad_down", "dpad_right"]

def trigger_keys : List String := ["l2_lt", "r2_rt"]

/-- The probe order of the wizard's step list (lines 418-439). -/
def calibrationSteps : List String :=
  ["square_x", "cross_a", "circle_b", "triangle_y",
   "dpad_up", "dpad_left", "dpad_down", "dpad_right",
   "l1_lb", "l2_lt", "r1_rb", "r2_rt",
   "start", "select_back", "l3", "r3"]

/-- Sequencing of interruptible wizard stages: an operator interrupt
(`Except.error`, modelling the `KeyboardInterrupt` escaping the wizard at
line 1161) short-circuits everything that follows. -/
def andThen {α β : Type} (x : Except Unit α) (f : α → Except Unit β) : Except Unit β :=
  match x with
  | .error e => .error e
  | .ok a => f a

theorem andThen_eq_ok {α β : Type} (x : Except Unit α) (f : α → Except Unit β) (b : β)
    (h : andThen x f = .ok b) : ∃ a, x = .ok a ∧ f a = .ok b := by
  cases x with
  | error e => simp [andThen] at h
  | ok a => exact ⟨a, rfl, h⟩

/-- A blocking wait for all controls to return to rest
(`wait_for_buttons_released` / `wait_for_axis_near` / hat recentering):
completes only when the operator produces the release, interruptible. -/
def expectReleased : List (Option Capture) → Except Unit (List (Option Capture))
  | some .released :: ins => .ok ins
  | _ => .error ()

/-- One stick prompt of `calibrate_sticks` (lines 380-386):
`detect_axis_by_moving` followed by `wait_for_axis_near`. -/
def stickProbe : List (Option Capture) →
    Except Unit ((ℕ × ℤ × ℚ) × List (Option Capture))
  | some (.axisCap a s r) :: some .released :: ins => .ok ((a, s, r), ins)
  | _ => .error ()

/-- `calibrate_sticks` (lines 363-396): wait for release, then capture the
four stick prompts `lx`, `ly`, `rx`, `ry` in order. -/
def calibrate_sticks_run (ins : List (Option Capture)) :
    Except Unit (List (String × ℕ × ℤ × ℚ) × List (Option Capture)) :=
  andThen (expectReleased ins) fun ins0 =>
  andThen (stickProbe ins0) fun lx =>
  andThen (stickProbe lx.2) fun ly =>
  andThen (stickProbe ly.2) fun rx =>
  andThen (stickProbe rx.2) fun ry =>
  .ok ([("lx", lx.1), ("ly", ly.1), ("rx", rx.1), ("ry", ry.1)], ry.2)

/-- The capture part of one step of the wizard's probe loop (lines 454-487),
selected by the step key's control kind. -/
def stepCapture (dpad_mode : String) (hat_index : ℤ) (key : String)
    (ins : List (Option Capture)) : Except Unit (CalEntry × List (Option Capture)) :=
  if button_keys.contains key then
    match ins with
    | some (.buttonCap i) :: some .released :: ins2 => .ok (.buttonE i, ins2)
    | _ => .error ()
  else if dpad_keys.contains key then
    if dpad_mode = "hat" then
      match ins with
      | some (.hatCap hx hy) :: some .released :: ins2 =>
        .ok (.hatDirE hat_index hx hy, ins2)
      | _ => .error ()
    else
      match ins with
      | some (.buttonCap i) :: some .released :: ins2 => .ok (.buttonE i, ins2)
      | _ => .error ()
  else if trigger_keys.contains key then
    match ins with
    | some (.trigCap i m r) :: some .released :: ins2 => .ok (.axisE i m r, ins2)
    | _ => .error ()
  else .ok (.noneE, ins)

/-- The wizard's probe loop over the step list (lines 448-487): each step
waits for release (line 452), captures, and appends its `cal` entry. -/
def runSteps (dpad_mode : String) (hat_index : ℤ) :
    List String → List (Option Capture) →
      Except Unit (List (String × CalEntry) × List (Option Capture))
  | [], ins => .ok ([], ins)
  | key :: ks, ins =>
    andThen (expectReleased ins) fun ins1 =>
    andThen (stepCapture dpad_mode hat_index key ins1) fun entry =>
    andThen (runSteps dpad_mode hat_index ks entry.2) fun entries =>
    .ok ((key, entry.1) :: entries.1, entries.2)

def stickAxisOf (l : List (String × ℕ × ℤ × ℚ)) (k : String) : ℕ :=
  ((l.find? (fun p => p.1 == k)).map (fun p => p.2.1)).getD 0

def stickSignOf (l : List (String × ℕ × ℤ × ℚ)) (k : String) : ℤ :=
  ((l.find? (fun p => p.1 == k)).map (fun p => p.2.2.1)).getD 0

/-- The body of `calibrate_controller` (lines 399-496) up to but excluding
the final `save_config`: hat bookkeeping (lines 409-410), initial release
wait (line 413), stick calibration, the sixteen probe steps, and the final
config assembly (lines 388-394, 489-490) that sets `calibrated = True`. -/
def calibrate_core (numhats : ℕ) (cfg : CalCfg) (ins : List (Option Capture)) :
    Except Unit CalCfg :=
  let hat_index : ℤ := if 0 < numhats then 0 else -1
  let dpad_mode : String := if 0 < numhats then "hat" else "buttons"
  andThen (expectReleased ins) fun ins0 =>
  andThen (calibrate_sticks_run ins0) fun sticks =>
  andThen (runSteps dpad_mode hat_index calibrationSteps sticks.2) fun entries =>
  .ok { cfg with
    left_x_axis := stickAxisOf sticks.1 "lx",
    left_y_axis := stickAxisOf sticks.1 "ly",
    right_x_axis := stickAxisOf sticks.1 "rx",
    right_y_axis := stickAxisOf sticks.1 "ry",
    invert_left_y := 0 < stickSignOf sticks.1 "ly",
    invert_right_y := 0 < stickSignOf sticks.1 "ry",
    calibrated := true,
    calibration :=
      [("hat_index", CalEntry.intE hat_index),
       ("dpad_mode", CalEntry.strE dpad_mode),
       ("stick_axes", CalEntry.sticksE sticks.1)] ++ entries.1 }

/-- `calibrate_controller` with persistence tracking: the second component is
the sequence of `save_config` writes performed. The only write in the wizard
is the one at line 491, after all probe steps; an interrupt anywhere earlier
escapes before it (caught at lines 1158-1163 of `main`). -/
def calibrate_controller (numhats : ℕ) (cfg : CalCfg) (ins : List (Option Capture)) :
    Except Unit CalCfg × List CalCfg :=
  match calibrate_core numhats cfg ins with
  | .error e => (.error e, [])
  | .ok c => (.ok c, [c])

theorem calibrate_core_ok_calibrated (numhats : ℕ) (cfg : CalCfg)
    (ins : List (Option Capture)) (c : CalCfg)
    (h : calibrate_core numhats cfg ins = .ok c) : c.calibrated = true := by
  simp only [calibrate_core] at h
  obtain ⟨ins0, h1, h⟩ := andThen_eq_ok _ _ _ h
  obtain ⟨sticks, h2, h⟩ := andThen_eq_ok _ _ _ h
  obtain ⟨entries, h3, h⟩ := andThen_eq_ok _ _ _ h
  simp only [Except.ok.injEq] at h
  subst h
  rfl

/-- C8: when the calibration wizard is interrupted by the operator at any
point before full completion nothing is persisted; only on full completion of
all probe steps does it persist the configuration document, with
`calibrated = true` set in it. -/
theorem C8_calibration_persistence (numhats : ℕ) (cfg : CalCfg)
    (ins : List (Option Capture)) :
    (∀ e, (calibrate_controller numhats cfg ins).1 = .error e →
      (calibrate_controller numhats cfg ins).2 = []) ∧
    (∀ c, (calibrate_controller numhats cfg ins).1 = .ok c →
      (calibrate_controller numhats cfg ins).2 = [c] ∧ c.calibrated = true) := by
  cases hcore : calibrate_core numhats cfg ins with
  | error e =>
    rw [calibrate_controller, hcore]
    exact ⟨fun _ _ => rfl, fun c h => absurd h (by simp)⟩
  | ok c0 =>
    rw [calibrate_controller, hcore]
    refine ⟨fun e h => absurd h (by simp), fun c h => ?_⟩
    simp only [Except.ok.injEq] at h
    subst h
    exact ⟨rfl, calibrate_core_ok_calibrated numhats cfg ins c0 hcore⟩

/-- Starting config for the C8 witness (the defaults of lines 29-32 plus an
empty calibration). -/
def c8Cfg : CalCfg :=
  { left_x_axis := 0, left_y_axis := 1, right_x_axis := 2, right_y_axis := 3,
    invert_left_y := false, invert_right_y := false,
    calibrated := false, calibration := [] }

/-- A complete operator session for the C8 witness, on a device with one hat:
initial release, the stick calibration block, then the sixteen probe steps. -/
def c8GoodInputs : List (Option Capture) :=
  [some .released,
   some .released,
   some (.axisCap 0 1 0), some .released,
   some (.axisCap 1 1 0), some .released,
   some (.axisCap 2 1 0), some .released,
   some (.axisCap 3 (-1) 0), some .released,
   some .released, some (.buttonCap 0), some .released,
   some .released, some (.buttonCap 1), some .released,
   some .released, some (.buttonCap 2), some .released,
   some .released, some (.buttonCap 3), some .released,
   some .released, some (.hatCap 0 1), some .released,
   some .released, some (.hatCap (-1) 0), some .released,
   some .released, some (.hatCap 0 (-1)), some .released,
   some .released, some (.hatCap 1 0), some .released,
   some .released, some (.buttonCap 4), some .released,
   some .released, some (.trigCap 4 "minus1_to_1" (-1)), some .released,
   some .released, some (.buttonCap 5), some .released,
   some .released, some (.trigCap 5 "minus1_to_1" (-1)), some .released,
   some .released, some (.buttonCap 6), some .released,
   some .released, some (.buttonCap 7), some .released,
   some .released, some (.buttonCap 8), some .released,
   some .released, some (.buttonCap 9), some .released]

/-- The configuration document the wizard persists for the witness session
`c8GoodInputs`. -/
def c8Ok : CalCfg :=
  { left_x_axis := 0, left_y_axis := 1, right_x_axis := 2, right_y_axis := 3,
    invert_left_y := true, invert_right_y := false,
    calibrated := true,
    calibration :=
      [("hat_index", CalEntry.intE 0),
       ("dpad_mode", CalEntry.strE "hat"),
       ("stick_axes", CalEntry.sticksE
         [("lx", 0, 1, 0), ("ly", 1, 1, 0), ("rx", 2, 1, 0), ("ry", 3, -1, 0)]),
       ("square_x", CalEntry.buttonE 0),
       ("cross_a", CalEntry.buttonE 1),
       ("circle_b", CalEntry.buttonE 2),
       ("triangle_y", CalEntry.buttonE 3),
       ("dpad_up", CalEntry.hatDirE 0 0 1),
       ("dpad_left", CalEntry.hatDirE 0 (-1) 0),
       ("dpad_down", CalEntry.hatDirE 0 0 (-1)),
       ("dpad_right", CalEntry.hatDirE 0 1 0),
       ("l1_lb", CalEntry.buttonE 4),
       ("l2_lt", CalEntry.axisE 4 "minus1_to_1" (-1)),
       ("r1_rb", CalEntry.buttonE 5),
       ("r2_rt", CalEntry.axisE 5 "minus1_to_1" (-1)),
       ("start", CalEntry.buttonE 6),
       ("select_back", CalEntry.buttonE 7),
       ("l3", CalEntry.buttonE 8),
       ("r3", CalEntry.buttonE 9)] }

/-- Witness for C8: an immediately interrupted session persists nothing,
and the complete session `c8GoodInputs` persists exactly the final document,
with `calibrated = true`. -/
theorem C8_calibration_persistence_witness :
    (calibrate_controller 1 c8Cfg []).2 = [] ∧
    ((calibrate_controller 1 c8Cfg c8GoodInputs).2 = [c8Ok] ∧
      c8Ok.calibrated = true) :=
  ⟨(C8_calibration_persistence 1 c8Cfg []).1 () rfl,
   (C8_calibration_persistence 1 c8Cfg c8GoodInputs).2 c8Ok (by rfl)⟩

end CameraRelativeStick
